import Mathlib

/-!
# Verification of the hybrid vector-store core

Shallow embedding of `src/app/services/vector_store.py` (class `VectorStore`)
and `src/app/services/colbert_service.py` (class `ColbertService`).

Modelling conventions:
* Python floats carry no arithmetic in the verified behaviours, so vector
  components are embedded as `Int` values; dense vectors are `List Int`,
  sparse vectors are index/weight pairs, multi-vectors are lists of vectors.
* Python dicts used as payload/metadata are embedded as association lists
  with string keys and values; the reserved `content` entry is placed first,
  matching the literal `{"content": chunk, **metadata}` construction (the
  claims never exercise a metadata key colliding with `content`).
* `uuid4()` id generation is embedded as a fresh-id counter: the i-th record
  of one `upsert_chunks` call receives id `i`.  Freshness/uniqueness of the
  uuid supply is the only fact used.
* The external qdrant client is embedded as an oracle: `exec` answers store
  queries, `writeOk j` tells whether the j-th batch write of a call succeeds,
  and the spec's taxonomy names (`InvalidArgument` for the `ValueError`s the
  code raises, `IngestionError` for a propagated batch-write failure) label
  the exceptions.
* The external embedding models (`SparseVectorService.generate_sparse_vector`,
  `BGEM3FlagModel` inside `ColbertService`) are black-box function parameters,
  as the spec prescribes.
-/

set_option autoImplicit false

namespace VectorStoreModel

universe u v w

/-- Sparse vector: (term-index, weight) pairs, the qdrant `SparseVector`
produced by `SparseVectorService.generate_sparse_vector`. -/
abbrev SparseVec := List (Nat × Int)

/-- Multi-vector (ColBERT) representation: one vector per token. -/
abbrev MultiVec := List (List Int)

/-- Chunk metadata: a string-keyed mapping, embedded as an association list. -/
abbrev Metadata := List (String × String)

/-- Distance metric of a vector space (`Distance.COSINE` is the only one the
source uses). -/
inductive DistanceKind where
  | cosine
deriving DecidableEq

/-- Multi-vector comparator (`MultiVectorComparator.MAX_SIM`). -/
inductive ComparatorKind where
  | maxSim
deriving DecidableEq

/-- `qdrant_client.models.VectorParams` as the source instantiates it. -/
structure VectorParams where
  size : Nat
  distance : DistanceKind
  multivectorComparator : Option ComparatorKind
deriving DecidableEq

/-- The per-space configuration `create_collection` receives: the
`vectors_config` dict (whose `colbert` entry is literally `None` when the
multi-vector feature is disabled) and the names in `sparse_vectors_config`. -/
structure CollectionSchema where
  vectors : List (String × Option VectorParams)
  sparseVectors : List String
deriving DecidableEq

/-- `ColbertService` (colbert_service.py): the feature flag plus the
black-box BGE-M3 token-level encoder. -/
structure ColbertService where
  enabled : Bool
  encode : String → MultiVec

/-- `ColbertService.generate_colbert_vectors`: returns `[]` when the service
is disabled, otherwise one multi-vector per input text (single batched
model call). -/
def genColbert (cs : ColbertService) (texts : List String) : List MultiVec :=
  if cs.enabled then texts.map cs.encode else []

/-- `qdrant_client.models.PointStruct` as `upsert_chunks` builds it. -/
structure Point where
  id : Nat
  dense : List Int
  sparse : SparseVec
  colbert : Option MultiVec
  payload : List (String × String)
deriving DecidableEq

/-- The `content` entry of a point payload (`payload.get("content")`). -/
def Point.content (p : Point) : Option String :=
  p.payload.lookup "content"

/-- Python `zip` over three parallel sequences: truncates to the shortest. -/
def zip3 {α : Type u} {β : Type v} {γ : Type w} :
    List α → List β → List γ → List (α × β × γ)
  | x :: xs, y :: ys, z :: zs => (x, y, z) :: zip3 xs ys zs
  | _, _, _ => []

/-- One iteration of the `for i, (chunk, embedding, metadata) in
enumerate(zip(...))` loop body of `upsert_chunks`. -/
def mkPoint (cs : ColbertService) (sparseOf : String → SparseVec)
    (colbertVecs : List MultiVec) (i : Nat) (chunk : String)
    (emb : List Int) (md : Metadata) : Point :=
  { id := i
    dense := emb
    sparse := sparseOf chunk
    colbert :=
      if cs.enabled && !colbertVecs.isEmpty then colbertVecs.get? i else none
    payload := ("content", chunk) :: md }

/-- The full point-assembly phase of `upsert_chunks` (everything before the
batched writes). -/
def buildPoints (cs : ColbertService) (sparseOf : String → SparseVec)
    (chunks : List String) (embeddings : List (List Int))
    (metadatas : List Metadata) : List Point :=
  let colbertVecs := genColbert cs chunks
  (zip3 chunks embeddings metadatas).enum.map
    (fun p => mkPoint cs sparseOf colbertVecs p.1 p.2.1 p.2.2.1 p.2.2.2)

/-- `points[i:i+batch_size]` slicing loop (`for i in range(0, len(points),
batch_size)`), with fuel for structural recursion; one element at least is
consumed per step, so `xs.length` fuel is always enough. -/
def sliceBatchesFuel {α : Type u} : Nat → Nat → List α → List (List α)
  | 0, _, _ => []
  | _ + 1, _, [] => []
  | fuel + 1, bsz, x :: rest =>
      ((x :: rest).take bsz) :: sliceBatchesFuel fuel bsz (rest.drop (bsz - 1))

/-- Partition of the assembled points into consecutive batches of at most
`bsz` records, exactly as the `range(0, len(points), batch_size)` loop
slices them. -/
def sliceBatches {α : Type u} (bsz : Nat) (xs : List α) : List (List α) :=
  sliceBatchesFuel xs.length bsz xs

/-- The sequential batch-write loop: `writeOk j` is the outcome of the j-th
`client.upsert` call.  Returns the batches actually written (in order) and
whether every write succeeded; a failing write aborts the remaining
batches. -/
def runBatches (writeOk : Nat → Bool) : Nat → List (List Point) →
    List (List Point) × Bool
  | _, [] => ([], true)
  | j, b :: rest =>
    if writeOk j then
      let r := runBatches writeOk (j + 1) rest
      (b :: r.1, r.2)
    else ([], false)

/-- Error taxonomy (§7 of the spec): `invalidArgument` labels the
`ValueError`s the code raises, `ingestionError` the batch-write exception
`upsert_chunks` re-raises. -/
inductive VErr where
  | invalidArgument (msg : String)
  | ingestionError
deriving DecidableEq

deriving instance DecidableEq for Except

/-- Observable outcome of one `upsert_chunks` call: the sequence of
successful `client.upsert` batch writes and the returned ids (or the
propagated failure). -/
structure UpsertOutcome where
  writes : List (List Point)
  result : Except VErr (List Nat)
deriving DecidableEq

/-- `VectorStore.upsert_chunks`: assemble points (zipping the three inputs),
then write them in batches of 5 (colbert enabled) or 50 (disabled); return
the generated ids only if every batch write succeeds. -/
def upsert_chunks (cs : ColbertService) (sparseOf : String → SparseVec)
    (writeOk : Nat → Bool) (chunks : List String)
    (embeddings : List (List Int)) (metadatas : List Metadata) :
    UpsertOutcome :=
  let points := buildPoints cs sparseOf chunks embeddings metadatas
  let chunkIds := points.map Point.id
  let batchSize := if cs.enabled then 5 else 50
  let r := runBatches writeOk 0 (sliceBatches batchSize points)
  { writes := r.1
    result := if r.2 then .ok chunkIds else .error .ingestionError }

/-! ### Helper lemmas about the ingestion pipeline -/

theorem zip3_length {α : Type u} {β : Type v} {γ : Type w}
    (a : List α) (b : List β) (c : List γ) :
    (zip3 a b c).length = min a.length (min b.length c.length) := by
  induction a generalizing b c with
  | nil => cases b <;> cases c <;> simp [zip3]
  | cons x xs ih =>
    cases b with
    | nil => simp [zip3]
    | cons y ys =>
      cases c with
      | nil => simp [zip3]
      | cons z zs =>
        simp only [zip3, List.length_cons, ih]
        omega

theorem zip3_map_fst {α : Type u} {β : Type v} {γ : Type w}
    (a : List α) (b : List β) (c : List γ)
    (h1 : a.length ≤ b.length) (h2 : a.length ≤ c.length) :
    (zip3 a b c).map (fun t => t.1) = a := by
  induction a generalizing b c with
  | nil => cases b <;> cases c <;> simp [zip3]
  | cons x xs ih =>
    cases b with
    | nil => simp at h1
    | cons y ys =>
      cases c with
      | nil => simp at h2
      | cons z zs =>
        simp only [zip3, List.map_cons, List.cons.injEq, true_and]
        exact ih ys zs (by simpa using h1) (by simpa using h2)

theorem buildPoints_length (cs : ColbertService) (sparseOf : String → SparseVec)
    (chunks : List String) (embeddings : List (List Int))
    (metadatas : List Metadata) :
    (buildPoints cs sparseOf chunks embeddings metadatas).length
      = (zip3 chunks embeddings metadatas).length := by
  simp [buildPoints]

theorem buildPoints_map_id (cs : ColbertService) (sparseOf : String → SparseVec)
    (chunks : List String) (embeddings : List (List Int))
    (metadatas : List Metadata) :
    (buildPoints cs sparseOf chunks embeddings metadatas).map Point.id
      = List.range (zip3 chunks embeddings metadatas).length := by
  simp only [buildPoints, List.map_map]
  have : (Point.id ∘ fun p : Nat × String × List Int × Metadata =>
      mkPoint cs sparseOf (genColbert cs chunks) p.1 p.2.1 p.2.2.1 p.2.2.2)
      = Prod.fst := by
    funext p; rfl
  rw [this, List.enum_map_fst]

theorem buildPoints_map_content (cs : ColbertService)
    (sparseOf : String → SparseVec) (chunks : List String)
    (embeddings : List (List Int)) (metadatas : List Metadata) :
    (buildPoints cs sparseOf chunks embeddings metadatas).map Point.content
      = (zip3 chunks embeddings metadatas).map (fun t => some t.1) := by
  simp only [buildPoints, List.map_map]
  have : (Point.content ∘ fun p : Nat × String × List Int × Metadata =>
      mkPoint cs sparseOf (genColbert cs chunks) p.1 p.2.1 p.2.2.1 p.2.2.2)
      = (fun t => some t.1) ∘ (Prod.snd (α := Nat)) := by
    funext p
    simp [Point.content, mkPoint, List.lookup]
  rw [this, ← List.map_map, List.enum_map_snd]

theorem runBatches_all_true (l : List (List Point)) :
    ∀ k : Nat, runBatches (fun _ => true) k l = (l, true) := by
  induction l with
  | nil => intro k; rfl
  | cons b rest ih => intro k; simp [runBatches, ih]

theorem runBatches_fail (w : Nat → Bool) (l : List (List Point)) :
    ∀ k j : Nat, j < l.length → w (k + j) = false →
    (∀ i, i < j → w (k + i) = true) →
    runBatches w k l = (l.take j, false) := by
  induction l with
  | nil => intro k j hj _ _; simp at hj
  | cons b rest ih =>
    intro k j hj hf hp
    cases j with
    | zero =>
      have hk : w k = false := by simpa using hf
      simp [runBatches, hk]
    | succ j' =>
      have hk : w k = true := by simpa using hp 0 (Nat.succ_pos j')
      have hrec := ih (k + 1) j' (by simpa using hj)
        (by rw [show k + 1 + j' = k + (j' + 1) by omega]; exact hf)
        (fun i hi => by
          rw [show k + 1 + i = k + (i + 1) by omega]
          exact hp (i + 1) (by omega))
      simp [runBatches, hk, hrec]

theorem runBatches_writes_mem (w : Nat → Bool) (l : List (List Point)) :
    ∀ (k : Nat) (b : List Point), b ∈ (runBatches w k l).1 → b ∈ l := by
  induction l with
  | nil => intro k b hb; simp [runBatches] at hb
  | cons a rest ih =>
    intro k b hb
    cases hw : w k with
    | true =>
      simp only [runBatches, hw, if_pos] at hb
      rcases List.mem_cons.mp hb with h | h
      · exact h ▸ List.mem_cons_self a rest
      · exact List.mem_cons_of_mem a (ih (k + 1) b h)
    | false =>
      simp [runBatches, hw] at hb

theorem sliceBatchesFuel_join {α : Type u} (bsz : Nat) (hbs : 1 ≤ bsz) :
    ∀ (n : Nat) (xs : List α), xs.length ≤ n →
    (sliceBatchesFuel n bsz xs).flatten = xs := by
  intro n
  induction n with
  | zero =>
    intro xs hx
    have : xs = [] := List.length_eq_zero.mp (Nat.le_zero.mp hx)
    subst this; rfl
  | succ n ih =>
    intro xs hx
    cases xs with
    | nil => rfl
    | cons x rest =>
      simp only [sliceBatchesFuel, List.flatten_cons]
      rw [ih (rest.drop (bsz - 1)) (by simp only [List.length_drop]; simp at hx; omega)]
      obtain ⟨m, rfl⟩ : ∃ m, bsz = m + 1 := ⟨bsz - 1, by omega⟩
      simp only [List.take_succ_cons, Nat.add_sub_cancel, List.cons_append,
        List.cons.injEq, true_and]
      exact List.take_append_drop m rest

theorem sliceBatches_flatten {α : Type u} (bsz : Nat) (hbs : 1 ≤ bsz)
    (xs : List α) : (sliceBatches bsz xs).flatten = xs :=
  sliceBatchesFuel_join bsz hbs xs.length xs le_rfl

theorem sliceBatchesFuel_length_le {α : Type u} (bsz : Nat) :
    ∀ (n : Nat) (xs : List α) (b : List α),
    b ∈ sliceBatchesFuel n bsz xs → b.length ≤ bsz := by
  intro n
  induction n with
  | zero => intro xs b hb; simp [sliceBatchesFuel] at hb
  | succ n ih =>
    intro xs b hb
    cases xs with
    | nil => simp [sliceBatchesFuel] at hb
    | cons x rest =>
      simp only [sliceBatchesFuel] at hb
      rcases List.mem_cons.mp hb with h | h
      · subst h; simp only [List.length_take]; omega
      · exact ih (rest.drop (bsz - 1)) b h

theorem sliceBatchesFuel_dropLast {α : Type u} (bsz : Nat) :
    ∀ (n : Nat) (xs : List α) (b : List α),
    b ∈ (sliceBatchesFuel n bsz xs).dropLast → b.length = bsz := by
  intro n
  induction n with
  | zero => intro xs b hb; simp [sliceBatchesFuel] at hb
  | succ n ih =>
    intro xs b hb
    cases xs with
    | nil => simp [sliceBatchesFuel] at hb
    | cons x rest =>
      simp only [sliceBatchesFuel] at hb
      rcases hS : sliceBatchesFuel n bsz (rest.drop (bsz - 1)) with _ | ⟨s, S⟩
      · rw [hS] at hb; simp at hb
      · rw [hS, List.dropLast_cons₂] at hb
        rcases List.mem_cons.mp hb with h | h
        · subst h
          have hdrop : rest.drop (bsz - 1) ≠ [] := by
            intro hd
            rw [hd] at hS
            cases n <;> simp [sliceBatchesFuel] at hS
          have hlen : 0 < rest.length - (bsz - 1) := by
            have := List.length_pos.mpr hdrop
            simpa [List.length_drop] using this
          simp only [List.length_take, List.length_cons]
          omega
        · rw [← hS] at h
          exact ih (rest.drop (bsz - 1)) b h

/-- `upsert_chunks` when every batch write succeeds: all batches are written
and the ids of all assembled points are returned. -/
theorem upsert_all_ok (cs : ColbertService) (sparseOf : String → SparseVec)
    (chunks : List String) (embeddings : List (List Int))
    (metadatas : List Metadata) :
    upsert_chunks cs sparseOf (fun _ => true) chunks embeddings metadatas
      = { writes := sliceBatches (if cs.enabled then 5 else 50)
            (buildPoints cs sparseOf chunks embeddings metadatas)
          result := .ok ((buildPoints cs sparseOf chunks embeddings
            metadatas).map Point.id) } := by
  simp [upsert_chunks, runBatches_all_true]

/-! ### Query engine (`VectorStore.search` and the `search_*` helpers) -/

/-- A raw qdrant hit (`query_points(...).points` element): id, score and
payload. -/
structure Hit where
  id : Nat
  score : Int
  payload : List (String × String)
deriving DecidableEq

/-- Normalized search result (`{"id", "score", "content", "metadata"}`). -/
structure SearchResult where
  id : Nat
  score : Int
  content : Option String
  metadata : List (String × String)
deriving DecidableEq

/-- `qdrant_client.models.FieldCondition(key, MatchValue(value))`. -/
structure FieldCondition where
  key : String
  matchValue : String
deriving DecidableEq

/-- `qdrant_client.models.Filter(must=[...])`. -/
structure QFilter where
  must : List FieldCondition
deriving DecidableEq

/-- A store query as issued through `client.query_points`: which vector
space(s) it targets, the query payload, the filter forwarded to the store
and the limit.  `hybridRRF` is the prefetch + `FusionQuery(fusion=RRF)`
call of `search_hybrid`, which forwards no filter at all. -/
inductive StoreQuery where
  | dense (q : List Int) (filt : Option QFilter) (lim : Nat)
  | sparse (q : SparseVec) (filt : Option QFilter) (lim : Nat)
  | colbert (q : MultiVec) (filt : Option QFilter) (lim : Nat)
  | hybridRRF (sparseQ : SparseVec) (denseQ : List Int)
      (prefetchLim : Nat) (lim : Nat)
deriving DecidableEq

/-- The filter component a store query carries. -/
def StoreQuery.qfilter : StoreQuery → Option QFilter
  | .dense _ f _ => f
  | .sparse _ f _ => f
  | .colbert _ f _ => f
  | .hybridRRF _ _ _ _ => none

/-- Python truthiness of an optional list (`not query_vector`): `none` and
`some []` are both falsy. -/
def truthyList {α : Type u} : Option (List α) → Bool
  | some (_ :: _) => true
  | _ => false

/-- Python truthiness of an optional string (`not query_text`): `none` and
`some ""` are both falsy. -/
def truthyStr : Option String → Bool
  | some s => !s.isEmpty
  | none => false

/-- Result normalization: payload `content` entry extracted, remaining
payload entries become `metadata`. -/
def normalizeHit (h : Hit) : SearchResult :=
  { id := h.id
    score := h.score
    content := h.payload.lookup "content"
    metadata := h.payload.filter (fun kv => kv.1 != "content") }

/-- `VectorStore.search`: mode dispatch, per-mode presence checks (Python
truthiness), the colbert soft-degrade, and result normalization.  `exec` is
the store oracle answering `client.query_points`; the second component of
the result is the list of store queries actually issued.  The
`filter_conditions` translation branch in the source is literally `pass`,
so the filter forwarded to every store call is `None`. -/
def search (cs : ColbertService) (sparseOf : String → SparseVec)
    (exec : StoreQuery → List Hit) (query_vector : Option (List Int))
    (top_k : Nat) (filter_conditions : Option (List (String × String)))
    (mode : String) (query_text : Option String) :
    Except VErr (List SearchResult) × List StoreQuery :=
  let search_filter : Option QFilter :=
    match filter_conditions with
    | some _ => none
    | none => none
  if mode = "dense" then
    if truthyList query_vector = false then
      (.error (.invalidArgument "query_vector required for dense search"), [])
    else
      let q : StoreQuery := .dense (query_vector.getD []) search_filter top_k
      (.ok ((exec q).map normalizeHit), [q])
  else if mode = "sparse" then
    if truthyStr query_text = false then
      (.error (.invalidArgument "query_text required for sparse search"), [])
    else
      let q : StoreQuery :=
        .sparse (sparseOf (query_text.getD "")) search_filter top_k
      (.ok ((exec q).map normalizeHit), [q])
  else if mode = "colbert" then
    if truthyStr query_text = false then
      (.error (.invalidArgument "query_text required for colbert search"), [])
    else if cs.enabled = false then
      (.ok [], [])
    else
      let q : StoreQuery :=
        .colbert ((genColbert cs [query_text.getD ""]).headD [])
          search_filter top_k
      (.ok ((exec q).map normalizeHit), [q])
  else if mode = "hybrid" then
    if truthyStr query_text = false ∨ truthyList query_vector = false then
      (.error (.invalidArgument
        "query_text and query_vector required for hybrid search"), [])
    else
      let q : StoreQuery :=
        .hybridRRF (sparseOf (query_text.getD "")) (query_vector.getD [])
          (top_k * 3) top_k
      (.ok ((exec q).map normalizeHit), [q])
  else
    (.error (.invalidArgument ("Invalid search mode: " ++ mode)), [])

/-! ### Collection lifecycle (`VectorStore._ensure_collection`) and
constructor (`VectorStore.__init__`) -/

/-- The store's collection registry: name/schema pairs. -/
abbrev StoreState := List (String × CollectionSchema)

/-- The schema `create_collection` receives from the source: dense space of
the configured dimensionality, cosine distance; colbert space of size 1024
with max-sim comparator when the multi-vector feature is enabled (the dict
entry is `None` otherwise); one sparse space. -/
def targetSchema (dim : Nat) (colbertEnabled : Bool) : CollectionSchema :=
  { vectors :=
      [("dense", some (VectorParams.mk dim .cosine none)),
       ("colbert",
        if colbertEnabled then
          some (VectorParams.mk 1024 .cosine (some .maxSim))
        else none)]
    sparseVectors := ["sparse"] }

/-- `VectorStore._ensure_collection`: list the collections; if one with the
configured name exists do nothing, otherwise create it with
`targetSchema`. -/
def ensure_collection (name : String) (dim : Nat) (colbertEnabled : Bool)
    (st : StoreState) : StoreState :=
  if st.any (fun c => c.1 == name) then st
  else (name, targetSchema dim colbertEnabled) :: st

/-- Observable outcome of constructing a `VectorStore`. -/
structure InitOutcome where
  attempts : Nat
  connected : Bool
  store : StoreState
deriving DecidableEq

/-- `VectorStore.__init__`: a single `QdrantClient(url, api_key)`
construction — no liveness probe, no retry loop — followed by
`_ensure_collection` when that construction succeeds.  `attemptOk k` is the
outcome the environment would give the k-th connection attempt; the source
only ever makes attempt 0. -/
def vectorStoreInit (attemptOk : Nat → Bool) (name : String) (dim : Nat)
    (colbertEnabled : Bool) (st : StoreState) : InitOutcome :=
  if attemptOk 0 then
    { attempts := 1, connected := true,
      store := ensure_collection name dim colbertEnabled st }
  else
    { attempts := 1, connected := false, store := st }

/-! ### Concrete instances used by closed witnesses and counterexamples -/

/-- A `ColbertService` with the multi-vector feature disabled. -/
def csDisabled : ColbertService := ⟨false, fun _ => [[0]]⟩

/-- A `ColbertService` with the multi-vector feature enabled and a trivial
token-level encoder. -/
def csEnabled : ColbertService := ⟨true, fun _ => [[0]]⟩

/-- A trivial sparse-embedding oracle. -/
def sfZero : String → SparseVec := fun _ => []

/-- A store oracle that answers every query with one fixed hit whose
`source_file` is `other.txt`. -/
def execOther : StoreQuery → List Hit :=
  fun _ => [{ id := 7, score := 1,
              payload := [("content", "x"), ("source_file", "other.txt")] }]

/-! ### Claim theorems -/

/-- C1 (counterexample): contrary to the claim, `upsert_chunks` called with
`chunks`, `denseEmbeddings`, `metadatas` of unequal lengths (2, 1, 2) does
not fail with `InvalidArgument` and does not perform zero writes: the
Python `zip` silently truncates to the shortest input, one record is
written and one id is returned. -/
theorem upsert_mismatched_no_error_cex :
    (upsert_chunks csDisabled sfZero (fun _ => true) ["a", "b"] [[1]]
      [[], []]).result = .ok [0]
    ∧ (upsert_chunks csDisabled sfZero (fun _ => true) ["a", "b"] [[1]]
      [[], []]).writes ≠ [] := by
  decide

/-- C1 (amended): for inputs of unequal lengths, `upsert_chunks` raises no
error: it silently zips the three sequences to the shortest length `n`,
writes exactly `n` records and returns `n` generated ids. -/
theorem upsert_mismatched_truncates (cs : ColbertService)
    (sparseOf : String → SparseVec) (chunks : List String)
    (embeddings : List (List Int)) (metadatas : List Metadata) :
    (upsert_chunks cs sparseOf (fun _ => true) chunks embeddings
      metadatas).result = .ok (List.range
        (min chunks.length (min embeddings.length metadatas.length)))
    ∧ (upsert_chunks cs sparseOf (fun _ => true) chunks embeddings
      metadatas).writes.flatten.length
      = min chunks.length (min embeddings.length metadatas.length) := by
  have hall := upsert_all_ok cs sparseOf chunks embeddings metadatas
  constructor
  · rw [hall]; dsimp only
    rw [buildPoints_map_id, zip3_length]
  · rw [hall]; dsimp only
    rw [sliceBatches_flatten _ (by cases cs.enabled <;> simp) _,
      buildPoints_length, zip3_length]

/-- C3: for equal-length inputs (and all batch writes succeeding),
`upsert_chunks` returns exactly `len(chunks)` ids, pairwise distinct, and
the records written to the store carry those ids in input order with the
i-th record holding the i-th chunk — regardless of the batch partition
(both the colbert-enabled and disabled batch sizes are covered by
quantifying over `cs`). -/
theorem upsert_ids_count_distinct_ordered (cs : ColbertService)
    (sparseOf : String → SparseVec) (chunks : List String)
    (embeddings : List (List Int)) (metadatas : List Metadata)
    (h1 : chunks.length = embeddings.length)
    (h2 : embeddings.length = metadatas.length) :
    (upsert_chunks cs sparseOf (fun _ => true) chunks embeddings
      metadatas).result = .ok (List.range chunks.length)
    ∧ (List.range chunks.length).length = chunks.length
    ∧ (List.range chunks.length).Nodup
    ∧ (upsert_chunks cs sparseOf (fun _ => true) chunks embeddings
        metadatas).writes.flatten.map Point.id = List.range chunks.length
    ∧ (upsert_chunks cs sparseOf (fun _ => true) chunks embeddings
        metadatas).writes.flatten.map Point.content = chunks.map some := by
  have hall := upsert_all_ok cs sparseOf chunks embeddings metadatas
  have hzl : (zip3 chunks embeddings metadatas).length = chunks.length := by
    rw [zip3_length]; omega
  have hflat : (upsert_chunks cs sparseOf (fun _ => true) chunks embeddings
      metadatas).writes.flatten
      = buildPoints cs sparseOf chunks embeddings metadatas := by
    rw [hall]; dsimp only
    exact sliceBatches_flatten _ (by cases cs.enabled <;> simp) _
  refine ⟨?_, by simp, List.nodup_range _, ?_, ?_⟩
  · rw [hall]; dsimp only
    rw [buildPoints_map_id, hzl]
  · rw [hflat, buildPoints_map_id, hzl]
  · rw [hflat, buildPoints_map_content]
    have hfst := zip3_map_fst chunks embeddings metadatas (by omega) (by omega)
    have h3 : chunks.map some
        = ((zip3 chunks embeddings metadatas).map (fun t => t.1)).map some := by
      rw [hfst]
    rw [h3, List.map_map]
    rfl

/-- Witness for C3 at a concrete equal-length input. -/
theorem upsert_ids_count_distinct_ordered_witness :
    (upsert_chunks csDisabled sfZero (fun _ => true) ["a", "b"] [[1], [2]]
      [[], []]).result = .ok (List.range 2) :=
  (upsert_ids_count_distinct_ordered csDisabled sfZero ["a", "b"]
    [[1], [2]] [[], []] rfl rfl).1

/-- C6: `upsert_chunks` partitions the records into consecutive batches of
size at most 5 when the multi-vector feature is enabled and at most 50
otherwise; every batch except the last is full; and 12 chunks with
multi-vector enabled yield exactly 3 write calls of sizes 5, 5, 2. -/
theorem upsert_batch_sizes :
    (∀ (cs : ColbertService) (sparseOf : String → SparseVec)
      (chunks : List String) (embeddings : List (List Int))
      (metadatas : List Metadata) (b : List Point),
      b ∈ (upsert_chunks cs sparseOf (fun _ => true) chunks embeddings
        metadatas).writes → b.length ≤ (if cs.enabled then 5 else 50))
    ∧ (∀ (cs : ColbertService) (sparseOf : String → SparseVec)
      (chunks : List String) (embeddings : List (List Int))
      (metadatas : List Metadata) (b : List Point),
      b ∈ ((upsert_chunks cs sparseOf (fun _ => true) chunks embeddings
        metadatas).writes).dropLast →
      b.length = (if cs.enabled then 5 else 50))
    ∧ (upsert_chunks csEnabled sfZero (fun _ => true) (List.replicate 12 "c")
        (List.replicate 12 [1]) (List.replicate 12 [])).writes.map
        List.length = [5, 5, 2] := by
  refine ⟨?_, ?_, by decide⟩
  · intro cs sparseOf chunks embeddings metadatas b hb
    rw [upsert_all_ok] at hb; dsimp only at hb
    simp only [sliceBatches] at hb
    exact sliceBatchesFuel_length_le _ _ _ b hb
  · intro cs sparseOf chunks embeddings metadatas b hb
    rw [upsert_all_ok] at hb; dsimp only at hb
    simp only [sliceBatches] at hb
    exact sliceBatchesFuel_dropLast _ _ _ b hb

/-- Witness for C6: the first write of the 12-chunk multi-vector-enabled
ingestion respects the batch-size bound. -/
theorem upsert_batch_sizes_witness :
    ((upsert_chunks csEnabled sfZero (fun _ => true) (List.replicate 12 "c")
      (List.replicate 12 [1]) (List.replicate 12 [])).writes.getD 0
      []).length ≤ (if csEnabled.enabled then 5 else 50) :=
  upsert_batch_sizes.1 csEnabled sfZero (List.replicate 12 "c")
    (List.replicate 12 [1]) (List.replicate 12 []) _ (by decide)

/-- C7: batches are written sequentially in input order; if the write of
batch `j` fails (all earlier ones succeeding), no batch after `j` is
written, the failure propagates as `IngestionError` with no id list
returned, and the store holds exactly the batches before `j` — a prefix of
the assembled records. -/
theorem upsert_batch_failure_aborts (cs : ColbertService)
    (sparseOf : String → SparseVec) (chunks : List String)
    (embeddings : List (List Int)) (metadatas : List Metadata)
    (wOk : Nat → Bool) (j : Nat)
    (hj : j < (sliceBatches (if cs.enabled then 5 else 50)
      (buildPoints cs sparseOf chunks embeddings metadatas)).length)
    (hfail : wOk j = false) (hpre : ∀ i, i < j → wOk i = true) :
    (upsert_chunks cs sparseOf wOk chunks embeddings metadatas).result
      = .error .ingestionError
    ∧ (upsert_chunks cs sparseOf wOk chunks embeddings metadatas).writes
      = (sliceBatches (if cs.enabled then 5 else 50)
          (buildPoints cs sparseOf chunks embeddings metadatas)).take j
    ∧ ∃ rest, (upsert_chunks cs sparseOf wOk chunks embeddings
        metadatas).writes.flatten ++ rest
      = buildPoints cs sparseOf chunks embeddings metadatas := by
  have hrun := runBatches_fail wOk
    (sliceBatches (if cs.enabled then 5 else 50)
      (buildPoints cs sparseOf chunks embeddings metadatas)) 0 j hj
    (by simpa using hfail) (fun i hi => by simpa using hpre i hi)
  refine ⟨?_, ?_, ?_⟩
  · unfold upsert_chunks; dsimp only
    rw [hrun]
    rfl
  · unfold upsert_chunks; dsimp only
    rw [hrun]
  · unfold upsert_chunks; dsimp only
    rw [hrun]; dsimp only
    refine ⟨((sliceBatches (if cs.enabled then 5 else 50)
      (buildPoints cs sparseOf chunks embeddings metadatas)).drop
        j).flatten, ?_⟩
    rw [← List.flatten_append, List.take_append_drop]
    exact sliceBatches_flatten _ (by cases cs.enabled <;> simp) _

/-- Witness for C7: a single batch whose write fails. -/
theorem upsert_batch_failure_aborts_witness :
    (upsert_chunks csDisabled sfZero (fun _ => false) ["a"] [[1]]
      [[]]).result = .error .ingestionError :=
  (upsert_batch_failure_aborts csDisabled sfZero ["a"] [[1]] [[]]
    (fun _ => false) 0 (by decide) rfl
    (fun i hi => absurd hi (Nat.not_lt_zero i))).1

/-- C2 (code defect evidence): the filter-translation branch of
`VectorStore.search` is an empty `pass`, so whatever `filter_conditions`
the caller supplies, every store query is issued with filter `None` — and
concretely, a search filtered on `source_file = doc.txt` returns a record
whose `source_file` is `other.txt`. -/
theorem search_filter_never_forwarded :
    (∀ (cs : ColbertService) (sparseOf : String → SparseVec)
      (exec : StoreQuery → List Hit) (qv : Option (List Int)) (k : Nat)
      (fc : Option (List (String × String))) (mode : String)
      (qt : Option String),
      ((search cs sparseOf exec qv k fc mode qt).2.all
        (fun q => decide (StoreQuery.qfilter q = none))) = true)
    ∧ search csDisabled sfZero execOther (some [1]) 5
        (some [("source_file", "doc.txt")]) "dense" none
      = (.ok [{ id := 7, score := 1, content := some "x",
                metadata := [("source_file", "other.txt")] }],
         [.dense [1] none 5]) := by
  constructor
  · intro cs sparseOf exec qv k fc mode qt
    cases fc <;>
      · unfold search
        dsimp only
        split_ifs <;> simp [StoreQuery.qfilter]
  · decide

/-- C4: `search` fails with `InvalidArgument` and issues no store query
exactly when the mode's required inputs are absent (absence being the
source's Python truthiness test, so `None` and empty values alike) or the
mode string is unknown. -/
theorem search_invalid_argument_iff (cs : ColbertService)
    (sparseOf : String → SparseVec) (exec : StoreQuery → List Hit)
    (qv : Option (List Int)) (k : Nat)
    (fc : Option (List (String × String))) (mode : String)
    (qt : Option String) :
    (∃ msg, search cs sparseOf exec qv k fc mode qt
      = (.error (.invalidArgument msg), []))
    ↔ ((mode = "dense" ∧ truthyList qv = false)
      ∨ (mode = "sparse" ∧ truthyStr qt = false)
      ∨ (mode = "colbert" ∧ truthyStr qt = false)
      ∨ (mode = "hybrid" ∧ (truthyList qv = false ∨ truthyStr qt = false))
      ∨ (mode ≠ "dense" ∧ mode ≠ "sparse" ∧ mode ≠ "colbert"
          ∧ mode ≠ "hybrid")) := by
  have hds : ("dense" : String) ≠ "sparse" := by decide
  have hdc : ("dense" : String) ≠ "colbert" := by decide
  have hdh : ("dense" : String) ≠ "hybrid" := by decide
  have hsc : ("sparse" : String) ≠ "colbert" := by decide
  have hsh : ("sparse" : String) ≠ "hybrid" := by decide
  have hch : ("colbert" : String) ≠ "hybrid" := by decide
  by_cases h1 : mode = "dense"
  · subst h1
    cases hv : truthyList qv <;>
      simp [search, hv, hds, hdc, hdh]
  · by_cases h2 : mode = "sparse"
    · subst h2
      cases ht : truthyStr qt <;>
        simp [search, ht, hds.symm, hsc, hsh]
    · by_cases h3 : mode = "colbert"
      · subst h3
        cases ht : truthyStr qt
        · simp [search, ht, hdc.symm, hsc.symm, hch]
        · cases he : cs.enabled <;>
            simp [search, ht, he, hdc.symm, hsc.symm, hch]
      · by_cases h4 : mode = "hybrid"
        · subst h4
          cases ht : truthyStr qt <;> cases hv : truthyList qv <;>
            simp [search, ht, hv, hdh.symm, hsh.symm, hch.symm]
        · simp [search, h1, h2, h3, h4]

/-- C5: a colbert-mode search with query text provided returns the empty
list — no error, no store query — when the multi-vector feature is
disabled. -/
theorem search_colbert_disabled_soft_degrade (enc : String → MultiVec)
    (sparseOf : String → SparseVec) (exec : StoreQuery → List Hit)
    (qv : Option (List Int)) (k : Nat)
    (fc : Option (List (String × String))) (t : String)
    (ht : truthyStr (some t) = true) :
    search ⟨false, enc⟩ sparseOf exec qv k fc "colbert" (some t)
      = (.ok [], []) := by
  have hcd : ("colbert" : String) ≠ "dense" := by decide
  have hcs : ("colbert" : String) ≠ "sparse" := by decide
  simp [search, ht, hcd, hcs]

/-- Witness for C5 at a concrete query text. -/
theorem search_colbert_disabled_soft_degrade_witness :
    search ⟨false, fun _ => [[0]]⟩ sfZero (fun _ => []) none 5 none "colbert"
      (some "q") = (.ok [], []) :=
  search_colbert_disabled_soft_degrade (fun _ => [[0]]) sfZero (fun _ => [])
    none 5 none "q" (by decide)

/-- C10: in dense and hybrid mode an empty query vector is treated exactly
like an absent one — the truthiness check rejects both with the
missing-`query_vector` error, no store query is issued, and the empty
vector is never forwarded. -/
theorem search_empty_vector_as_absent (cs : ColbertService)
    (sparseOf : String → SparseVec) (exec : StoreQuery → List Hit) (k : Nat)
    (fc : Option (List (String × String))) (qt : Option String) :
    search cs sparseOf exec (some []) k fc "dense" qt
      = search cs sparseOf exec none k fc "dense" qt
    ∧ search cs sparseOf exec (some []) k fc "hybrid" qt
      = search cs sparseOf exec none k fc "hybrid" qt
    ∧ search cs sparseOf exec (some []) k fc "dense" qt
      = (.error (.invalidArgument "query_vector required for dense search"),
         [])
    ∧ search cs sparseOf exec (some []) k fc "hybrid" qt
      = (.error (.invalidArgument
          "query_text and query_vector required for hybrid search"), []) := by
  have hvnil : truthyList (some ([] : List Int)) = false := rfl
  have hvnone : truthyList (none : Option (List Int)) = false := rfl
  have hhd : ("hybrid" : String) ≠ "dense" := by decide
  have hhs : ("hybrid" : String) ≠ "sparse" := by decide
  have hhc : ("hybrid" : String) ≠ "colbert" := by decide
  refine ⟨?_, ?_, ?_, ?_⟩ <;>
    simp [search, hvnil, hvnone, hhd, hhs, hhc]

/-- C8 (counterexample): the claim implies that whenever some attempt among
the first 3 would succeed, connection establishment succeeds; but
`VectorStore.__init__` makes a single client construction with no retry,
so with attempt 0 failing and attempt 1 succeeding it does not come up
connected. -/
theorem connect_no_retry_cex :
    ¬ (∀ attemptOk : Nat → Bool,
        (∃ kk, kk < 3 ∧ attemptOk kk = true) →
        (vectorStoreInit attemptOk "kb" 3 false []).connected = true) := by
  intro h
  have hc := h (fun kk => decide (0 < kk)) ⟨1, by decide, by decide⟩
  simp [vectorStoreInit] at hc

/-- C8 (amended): connection establishment makes exactly one attempt — no
liveness probe, no retry, no `ConnectivityError` wrapping: the constructor
comes up connected iff that single attempt succeeds (and then ensures the
collection), and its outcome depends on nothing past attempt 0. -/
theorem connect_single_attempt (attemptOk attemptOk' : Nat → Bool)
    (name : String) (dim : Nat) (en : Bool) (st : StoreState)
    (hagree : attemptOk 0 = attemptOk' 0) :
    (vectorStoreInit attemptOk name dim en st).attempts = 1
    ∧ (vectorStoreInit attemptOk name dim en st).connected = attemptOk 0
    ∧ (vectorStoreInit attemptOk name dim en st).store
      = (if attemptOk 0 then ensure_collection name dim en st else st)
    ∧ vectorStoreInit attemptOk name dim en st
      = vectorStoreInit attemptOk' name dim en st := by
  have h0' : attemptOk' 0 = attemptOk 0 := hagree.symm
  cases h0 : attemptOk 0 <;>
    simp [vectorStoreInit, h0, h0', h0 ▸ h0']

/-- Witness for C8's amended theorem: an all-failing oracle and one that
succeeds from attempt 1 on agree at attempt 0, hence produce the same
constructor outcome. -/
theorem connect_single_attempt_witness :
    vectorStoreInit (fun _ => false) "kb" 3 false []
      = vectorStoreInit (fun kk => decide (0 < kk)) "kb" 3 false [] :=
  (connect_single_attempt (fun _ => false) (fun kk => decide (0 < kk)) "kb" 3
    false [] (by decide)).2.2.2

/-- C9: `_ensure_collection` is idempotent — an existing collection is left
untouched (no creation, no schema diff), a missing one is created with the
dense space, the sparse space, and the colbert (multi-vector) space
configured exactly when the feature is enabled; running it twice equals
running it once. -/
theorem ensure_collection_idempotent (name : String) (dim : Nat) (en : Bool)
    (st : StoreState) :
    (st.any (fun c => c.1 == name) = true →
      ensure_collection name dim en st = st)
    ∧ (st.any (fun c => c.1 == name) = false →
      ensure_collection name dim en st = (name, targetSchema dim en) :: st)
    ∧ ((targetSchema dim en).vectors.lookup "dense"
        = some (some (VectorParams.mk dim .cosine none)))
    ∧ ("sparse" ∈ (targetSchema dim en).sparseVectors)
    ∧ (((targetSchema dim en).vectors.lookup "colbert"
        = some (some (VectorParams.mk 1024 .cosine (some .maxSim))))
        ↔ en = true)
    ∧ ensure_collection name dim en (ensure_collection name dim en st)
      = ensure_collection name dim en st := by
  have hcd : (("colbert" : String) == "dense") = false := by decide
  have hdd : (("dense" : String) == "dense") = true := by decide
  have hcc : (("colbert" : String) == "colbert") = true := by decide
  refine ⟨?_, ?_, ?_, ?_, ?_, ?_⟩
  · intro h; simp [ensure_collection, h]
  · intro h; simp [ensure_collection, h]
  · simp [targetSchema, List.lookup, hdd]
  · simp [targetSchema]
  · cases en <;> simp [targetSchema, List.lookup, hcd, hcc]
  · by_cases h : st.any (fun c => c.1 == name) = true
    · simp [ensure_collection, h]
    · have h' : st.any (fun c => c.1 == name) = false :=
        Bool.eq_false_iff.mpr h
      simp [ensure_collection, h']

/-- Witness for C9: on an empty store the collection is created with the
target schema. -/
theorem ensure_collection_idempotent_witness :
    ensure_collection "kb" 3 true [] = [("kb", targetSchema 3 true)] :=
  (ensure_collection_idempotent "kb" 3 true []).2.1 (by decide)

end VectorStoreModel
